import Mathlib

/-!
Shallow embedding of the go-future package (src/future/future.go).

Modelling conventions:
* Go errors are `Option E` (`none` = nil error).
* A `context.Context` is modelled by `Ctx E := Option E`: `none` means the
  context is live, `some e` means its Done channel is closed and `ctx.Err()`
  returns `e`.
* The zero value of a Go type `T` is `(default : T)` from an `Inhabited`
  instance.
* The unbuffered channel `stateCh` is modelled by the field `chanMsg`: a
  pending, not-yet-received send of a `State` value (at most one such send
  ever happens, performed by the task goroutine of `New`).  Receiving the
  message consumes it (`chanMsg` becomes `none`).
* Blocking is modelled by `Option`: an operation that would block forever in
  the current configuration returns `none`.
* The binary `select` in `TryGet`'s loop is deterministic except when both
  the channel receive and the context's Done are ready; that single
  nondeterministic choice is exposed as a `pick : Bool` parameter
  (`true` = take the channel branch).
-/

set_option autoImplicit false

namespace GoFuture

/-- State of a future, from src/future/future.go lines 7-13
(StatePending, StateDone, StateError). -/
inductive State where
  | pending
  | done
  | error
deriving DecidableEq

/-- Model of `context.Context` as observed by this package: `none` = not done,
`some e` = Done is closed and `Err()` returns `e`. -/
abbrev Ctx (E : Type) := Option E

/-- The `Future[T]` struct (lines 15-21).  The Go field `ctx` is not stored:
it is only ever forwarded to combinators, which here receive the context as an
explicit argument.  `chanMsg` models the unbuffered channel `stateCh`:
`some st` is a pending (sent, unreceived) message carrying `st`. -/
structure Future (T E : Type) where
  val : T
  err : Option E
  state : State
  chanMsg : Option State
deriving DecidableEq

variable {T E U : Type}

/-- Constructor `Ok` (lines 23-29): a pre-resolved success future.
Unset Go fields hold their zero values. -/
def Ok (v : T) : Future T E :=
  { val := v, err := none, state := State.done, chanMsg := none }

/-- Constructor `Err` (lines 31-37): a pre-resolved failure future. -/
def Err [Inhabited T] (e : E) : Future T E :=
  { val := default, err := some e, state := State.error, chanMsg := none }

/-- Constructor `New` (lines 39-44): the freshly allocated Pending future,
before its task goroutine has finished.  The task itself is modelled
separately by `completeTask`. -/
def New [Inhabited T] : Future T E :=
  { val := default, err := none, state := State.pending, chanMsg := none }

/-- The body of the goroutine spawned by `New` (lines 45-55), applied when the
task function has returned `res = (val, err)`: it writes `err`/`state` or
`val`/`state` and then performs the single send `f.stateCh <- f.state`
(modelled as the in-flight message `chanMsg`). -/
def completeTask (f : Future T E) (res : T × Option E) : Future T E :=
  match res.2 with
  | some e => { f with err := some e, state := State.error, chanMsg := some State.error }
  | none => { f with val := res.1, state := State.done, chanMsg := some State.done }

/-- One receive from `stateCh` inside `TryGet`'s loop (lines 70-77): the
message `st` is consumed and the branch on it is taken.  If `st` is Pending
(never sent by the actual goroutine) the loop repeats on the now-empty
channel, where it can only exit through `ctx.Done()`. -/
def recvStep [Inhabited T] (f : Future T E) (ctx : Ctx E) (st : State) :
    Option ((T × Option E) × Future T E) :=
  let f' : Future T E := { f with chanMsg := none }
  if st = State.done then some ((f'.val, none), f')
  else if st = State.error then some ((default, f'.err), f')
  else
    match ctx with
    | some ce => some ((default, some ce), f')
    | none => none

/-- The `for`/`select` loop of `TryGet` (lines 68-82), as a single step of the
waiting reader: receive from `stateCh` if a message is pending, fall to the
`ctx.Done()` branch if the context is done, otherwise block (`none`).  When
both are ready, `pick` resolves the select's random choice. -/
def waitLoop [Inhabited T] (f : Future T E) (ctx : Ctx E) (pick : Bool) :
    Option ((T × Option E) × Future T E) :=
  match f.chanMsg, ctx with
  | some st, none => recvStep f none st
  | some st, some ce =>
      if pick then recvStep f (some ce) st else some ((default, some ce), f)
  | none, some ce => some ((default, some ce), f)
  | none, none => none

/-- Method `TryGet` (lines 59-83).  The result is the returned
`(value, error)` pair together with the future as left behind by the call
(the fast paths never touch the channel). -/
def TryGet [Inhabited T] (f : Future T E) (ctx : Ctx E) (pick : Bool) :
    Option ((T × Option E) × Future T E) :=
  if f.state = State.done then some ((f.val, none), f)
  else if f.state = State.error then some ((default, f.err), f)
  else waitLoop f ctx pick

/-- Method `GetOr` (lines 85-91). -/
def GetOr [Inhabited T] (f : Future T E) (ctx : Ctx E) (pick : Bool) (fallback : T) :
    Option T :=
  (TryGet f ctx pick).map fun r =>
    match r.1.2 with
    | some _ => fallback
    | none => r.1.1

/-- Method `GetElse` (lines 93-99). -/
def GetElse [Inhabited T] (f : Future T E) (ctx : Ctx E) (pick : Bool)
    (fallback : Unit → T) : Option T :=
  (TryGet f ctx pick).map fun r =>
    match r.1.2 with
    | some _ => fallback ()
    | none => r.1.1

/-- Method `MustGet` (lines 101-107); `Except.error e` models `panic(err)`. -/
def MustGet [Inhabited T] (f : Future T E) (ctx : Ctx E) (pick : Bool) :
    Option (Except E T) :=
  (TryGet f ctx pick).map fun r =>
    match r.1.2 with
    | some e => Except.error e
    | none => Except.ok r.1.1

/-- Outcome a reader observes on a settled future: the fast-path result of
`TryGet` (lines 60-66). -/
def outcomeOf [Inhabited T] (f : Future T E) : T × Option E :=
  if f.state = State.done then (f.val, none) else (default, f.err)

/-- Task body of `Map` (lines 110-117): read the upstream future, propagate a
non-nil error with the zero value of `U`, otherwise apply `fun` to the value.
Also returns the upstream future as the read left it. -/
def mapBody [Inhabited T] [Inhabited U] (f : Future T E) (g : Ctx E → T → U)
    (ctx : Ctx E) (pick : Bool) : Option ((U × Option E) × Future T E) :=
  (TryGet f ctx pick).map fun r =>
    match r.1 with
    | (_, some e) => (((default : U), some e), r.2)
    | (v, none) => ((g ctx v, none), r.2)

/-- Combinator `Map` (lines 109-119): the future returned to the caller, once
its eagerly started task has run `mapBody` and published the result. -/
def Map [Inhabited T] [Inhabited U] (f : Future T E) (g : Ctx E → T → U)
    (ctx : Ctx E) (pick : Bool) : Option (Future U E × Future T E) :=
  (mapBody f g ctx pick).map fun r => (completeTask New r.1, r.2)

/-- Task body of `MapErr` (lines 122-128): on a non-nil upstream error, return
the value `TryGet` gave (the zero value) paired with `fun ctx val`; on
success pass the value through with a nil error. -/
def mapErrBody [Inhabited T] (f : Future T E) (g : Ctx E → T → Option E)
    (ctx : Ctx E) (pick : Bool) : Option ((T × Option E) × Future T E) :=
  (TryGet f ctx pick).map fun r =>
    match r.1 with
    | (v, some _) => ((v, g ctx v), r.2)
    | (v, none) => ((v, none), r.2)

/-- Combinator `MapErr` (lines 121-130). -/
def MapErr [Inhabited T] (f : Future T E) (g : Ctx E → T → Option E)
    (ctx : Ctx E) (pick : Bool) : Option (Future T E × Future T E) :=
  (mapErrBody f g ctx pick).map fun r => (completeTask New r.1, r.2)

/-- Task body of `FlatMapErr` (lines 145-152): on a non-nil upstream error,
call `fun` with the value `TryGet` gave (the zero value), then `TryGet` the
dependent future; on upstream success return the zero value of `U` with a nil
error.  `pick2` resolves the select of the inner `TryGet`. -/
def flatMapErrBody [Inhabited T] [Inhabited U] (f : Future T E)
    (g : Ctx E → T → Future U E) (ctx : Ctx E) (pick pick2 : Bool) :
    Option ((U × Option E) × Future T E) :=
  (TryGet f ctx pick).bind fun r =>
    match r.1 with
    | (v, some _) => (TryGet (g ctx v) ctx pick2).map fun r2 => (r2.1, r.2)
    | (_, none) => some (((default : U), none), r.2)

/-- Combinator `FlatMapErr` (lines 144-154). -/
def FlatMapErr [Inhabited T] [Inhabited U] (f : Future T E)
    (g : Ctx E → T → Future U E) (ctx : Ctx E) (pick pick2 : Bool) :
    Option (Future U E × Future T E) :=
  (flatMapErrBody f g ctx pick pick2).map fun r => (completeTask New r.1, r.2)

/-- Event consumed by one iteration of `All`'s select loop (lines 183-191):
a reader finished successfully after storing `vals[i] = v` (`succ i v`), a
reader delivered an error on `errCh` (`fail e`), or the caller's context was
done (`ctxCancel e` with `e = ctx.Err()`). -/
inductive AllEv (T E : Type) where
  | succ (i : Nat) (v : T)
  | fail (e : E)
  | ctxCancel (e : E)
deriving DecidableEq

/-- The aggregator loop of `All` (lines 183-193): run `n` iterations, one
event consumed per iteration; a `fail`/`ctxCancel` event returns that error
immediately (`return nil, err`); running out of events means every remaining
reader is still blocked, so the loop blocks (`none`); after `n` successful
iterations return the collected `vals`. -/
def allLoop : Nat → List T → List (AllEv T E) → Option (Except E (List T))
  | 0, vals, _ => some (Except.ok vals)
  | _ + 1, _, [] => none
  | n + 1, vals, AllEv.succ i v :: rest => allLoop n (vals.set i v) rest
  | _ + 1, _, AllEv.fail e :: _ => some (Except.error e)
  | _ + 1, _, AllEv.ctxCancel e :: _ => some (Except.error e)

/-- Function `All` (lines 166-194): `vals := make([]T, len(futures))` is the
zero-filled list, and the loop runs `len(futures)` iterations over the event
sequence produced by the spawned readers. -/
def All [Inhabited T] (fs : List (Future T E)) (evs : List (AllEv T E)) :
    Option (Except E (List T)) :=
  allLoop fs.length (List.replicate fs.length (default : T)) evs

/-- The reader goroutine spawned by `All` for index `i` (lines 172-180): it
calls `TryGet` with the caller's context, then either stores its value and
signals done (`succ i v`) or sends the error on `errCh` (`fail e`). -/
def readerEvent [Inhabited T] (ctx : Ctx E) (pick : Bool) (i : Nat)
    (f : Future T E) : Option (AllEv T E) :=
  (TryGet f ctx pick).map fun r =>
    match r.1 with
    | (v, none) => AllEv.succ i v
    | (_, some e) => AllEv.fail e

/-- Context under which each reader spawned by `All` waits (line 173):
`f.TryGet(ctx)` receives the caller's context itself — `All` derives no
child context and performs no cancellation. -/
def allReaderCtx (ctx : Ctx E) : Ctx E := ctx

/-- Helper mirroring the accumulated effect of the `vals[i] = val` stores
performed by `All`'s readers, in the order the stores happen. -/
def setFold (vals : List T) (l : List (Nat × T)) : List T :=
  l.foldl (fun a p => a.set p.1 p.2) vals

/-- Concrete two-reader scenario: the future returned by `New` over a
background context, before its task finishes. -/
def twoReaderStart : Future Nat Nat := New

/-- The same future after its task returned `(1, nil)`: fields written and
the single state message sent (in flight). -/
def twoReaderDone : Future Nat Nat := completeTask twoReaderStart (1, none)

/-- The same future after the first waiting reader has received the single
state message: the channel is empty again, forever. -/
def twoReaderAfterFirst : Future Nat Nat := { twoReaderDone with chanMsg := none }

/-! Helper lemmas about the read primitive and task completion. -/

theorem tryGet_done [Inhabited T] (f : Future T E) (ctx : Ctx E) (pick : Bool)
    (h : f.state = State.done) : TryGet f ctx pick = some ((f.val, none), f) := by
  simp [TryGet, h]

theorem tryGet_error [Inhabited T] (f : Future T E) (ctx : Ctx E) (pick : Bool)
    (h : f.state = State.error) : TryGet f ctx pick = some ((default, f.err), f) := by
  simp [TryGet, h]

theorem tryGet_terminal [Inhabited T] (f : Future T E) (ctx : Ctx E) (pick : Bool)
    (h : f.state ≠ State.pending) : TryGet f ctx pick = some (outcomeOf f, f) := by
  cases hs : f.state with
  | pending => exact absurd hs h
  | done => simp [TryGet, outcomeOf, hs]
  | error => simp [TryGet, outcomeOf, hs]

theorem tryGet_pending_canceled [Inhabited T] (f : Future T E) (ce : E) (pick : Bool)
    (hp : f.state = State.pending) (hc : f.chanMsg = none) :
    TryGet f (some ce) pick = some ((default, some ce), f) := by
  simp [TryGet, waitLoop, hp, hc]

theorem completeTask_state (f : Future T E) (res : T × Option E) :
    (completeTask f res).state = State.done ∨ (completeTask f res).state = State.error := by
  rcases res with ⟨v, e⟩
  cases e <;> simp [completeTask]

theorem completeTask_ne_pending (f : Future T E) (res : T × Option E) :
    (completeTask f res).state ≠ State.pending := by
  rcases completeTask_state f res with h | h <;> simp [h]

theorem outcomeOf_completeTask_ok [Inhabited T] (f : Future T E) (v : T) :
    outcomeOf (completeTask f (v, none)) = (v, none) := by
  simp [completeTask, outcomeOf]

theorem outcomeOf_completeTask_err [Inhabited T] (f : Future T E) (v : T) (e : E) :
    outcomeOf (completeTask f (v, some e)) = (default, some e) := by
  simp [completeTask, outcomeOf]

theorem tryGet_result_inv [Inhabited T] (f : Future T E) (ctx : Ctx E) (pick : Bool)
    (w : T) (oe : Option E) (g : Future T E)
    (h : TryGet f ctx pick = some ((w, oe), g)) :
    (oe = none ∧ w = f.val) ∨ w = default := by
  unfold TryGet waitLoop recvStep at h
  rcases f with ⟨fv, fe, fs, fc⟩
  cases fs <;> simp at h
  case done =>
    exact Or.inl ⟨h.1.2.symm, h.1.1.symm⟩
  case error =>
    exact Or.inr h.1.1.symm
  case pending =>
    cases fc with
    | none =>
        cases ctx with
        | none => simp at h
        | some ce => simp at h; exact Or.inr h.1.1.symm
    | some st =>
        cases ctx with
        | none =>
            cases st <;> simp at h
            · exact Or.inl ⟨h.1.2.symm, h.1.1.symm⟩
            · exact Or.inr h.1.1.symm
        | some ce =>
            cases pick <;> simp at h
            case false => exact Or.inr h.1.1.symm
            case true =>
              cases st <;> simp at h
              case pending => exact Or.inr h.1.1.symm
              case done => exact Or.inl ⟨h.1.2.symm, h.1.1.symm⟩
              case error => exact Or.inr h.1.1.symm

/-! Helper lemmas about the aggregation loop. -/

theorem setFold_cons (vals : List T) (p : Nat × T) (t : List (Nat × T)) :
    setFold vals (p :: t) = setFold (vals.set p.1 p.2) t := rfl

theorem setFold_length (l : List (Nat × T)) :
    ∀ vals : List T, (setFold vals l).length = vals.length := by
  induction l with
  | nil => intro vals; rfl
  | cons p t ih =>
      intro vals
      rw [setFold_cons, ih]
      exact List.length_set ..

theorem allLoop_succs (l : List (Nat × T)) :
    ∀ (vals : List T) (tail : List (AllEv T E)) (n : Nat), l.length ≤ n →
      allLoop n vals ((l.map fun p => AllEv.succ p.1 p.2) ++ tail)
        = allLoop (n - l.length) (setFold vals l) tail := by
  induction l with
  | nil => intro vals tail n _; simp [setFold]
  | cons p t ih =>
      intro vals tail n h
      cases n with
      | zero => simp at h
      | succ m =>
          have hm : t.length ≤ m := by simpa using h
          simp only [List.map_cons, List.cons_append, allLoop, List.append_eq]
          rw [ih (vals.set p.1 p.2) tail m hm, setFold_cons]
          have hlen : m + 1 - (p :: t).length = m - t.length := by
            simp [Nat.succ_sub_succ]
          rw [hlen]

theorem setFold_getElem_of_not_mem (l : List (Nat × T)) (j : Nat) :
    ∀ vals : List T, j ∉ l.map Prod.fst → (setFold vals l)[j]? = vals[j]? := by
  induction l with
  | nil => intro vals _; rfl
  | cons p t ih =>
      intro vals hj
      simp only [List.map_cons, List.mem_cons] at hj
      push_neg at hj
      rw [setFold_cons, ih _ hj.2]
      exact List.getElem?_set_ne (fun hpj => hj.1 hpj.symm)

theorem setFold_getElem_of_mem (l : List (Nat × T)) (j : Nat) (v : T) :
    ∀ vals : List T, (l.map Prod.fst).Nodup → (j, v) ∈ l → j < vals.length →
      (setFold vals l)[j]? = some v := by
  induction l with
  | nil => intro vals _ hm _; simp at hm
  | cons p t ih =>
      intro vals hnd hm hlen
      simp only [List.map_cons, List.nodup_cons] at hnd
      rcases List.mem_cons.mp hm with he | ht
      · have hj : p.1 = j := by rw [← he]
        have hv : p.2 = v := by rw [← he]
        have hjt : j ∉ t.map Prod.fst := by rw [← hj]; exact hnd.1
        rw [setFold_cons, setFold_getElem_of_not_mem t j _ hjt, hj, hv]
        exact List.getElem?_set_self hlen
      · rw [setFold_cons]
        exact ih (vals.set p.1 p.2) hnd.2 ht (by simpa using hlen)

/-- C1 (code bug witness trace): with two readers concurrently blocked in
TryGet's select loop on a Pending task-backed future over a background
context, the task's completion sends exactly one message on stateCh; the
first reader receives it and returns (1, nil), after which the second
reader's waiting step blocks again — and blocks forever, since the channel
never carries a second message and the context is never done.  This
contradicts the claim that every concurrent reader eventually returns the
terminal outcome. -/
theorem c1_lost_wakeup :
    TryGet twoReaderStart none true = none
    ∧ TryGet twoReaderStart none false = none
    ∧ twoReaderDone.state = State.done
    ∧ twoReaderDone.val = 1
    ∧ waitLoop twoReaderDone none true = some ((1, none), twoReaderAfterFirst)
    ∧ waitLoop twoReaderDone none false = some ((1, none), twoReaderAfterFirst)
    ∧ waitLoop twoReaderAfterFirst none true = none
    ∧ waitLoop twoReaderAfterFirst none false = none := by
  exact ⟨rfl, rfl, rfl, rfl, rfl, rfl, rfl, rfl⟩

/-- C2: completing a task moves a future from Pending to Done or Failed, and
a terminal future is never mutated by any read: TryGet returns the cached
outcome and the future unchanged (for every context and every select choice,
hence identically for any number of repeated reads), and the combinator task
bodies leave the upstream terminal future unchanged as well. -/
theorem c2_single_transition_immutable [Inhabited T] (f g : Future T E)
    (res : T × Option E) (ctx : Ctx E) (pick : Bool)
    (tr : Ctx E → T → T) (tre : Ctx E → T → Option E)
    (hg : g.state ≠ State.pending) :
    ((completeTask f res).state = State.done ∨ (completeTask f res).state = State.error)
    ∧ TryGet g ctx pick = some (outcomeOf g, g)
    ∧ (mapBody g tr ctx pick).map Prod.snd = some g
    ∧ (mapErrBody g tre ctx pick).map Prod.snd = some g := by
  refine ⟨completeTask_state f res, tryGet_terminal g ctx pick hg, ?_, ?_⟩
  · rw [mapBody, tryGet_terminal g ctx pick hg]
    rcases houtcome : outcomeOf g with ⟨w, oe⟩
    cases oe <;> simp
  · rw [mapErrBody, tryGet_terminal g ctx pick hg]
    rcases houtcome : outcomeOf g with ⟨w, oe⟩
    cases oe <;> simp

/-- C2 witness at concrete inputs. -/
theorem c2_witness :
    (((completeTask (New : Future Nat Nat) (2, none)).state = State.done
        ∨ (completeTask (New : Future Nat Nat) (2, none)).state = State.error)
      ∧ TryGet (Ok 5 : Future Nat Nat) none true = some (outcomeOf (Ok 5), Ok 5)
      ∧ (mapBody (Ok 5 : Future Nat Nat) (fun _ x => x) none true).map Prod.snd
          = some (Ok 5)
      ∧ (mapErrBody (Ok 5 : Future Nat Nat) (fun _ _ => none) none true).map Prod.snd
          = some (Ok 5)) :=
  c2_single_transition_immutable New (Ok 5) (2, none) none true
    (fun _ x => x) (fun _ _ => none) (by decide)

/-- C3: TryGet on the pre-resolved success future Ok v returns (v, nil) for
every context state (the context is never inspected), and TryGet on the
pre-resolved failure future Err e returns exactly e, immediately, with the
futures left unchanged. -/
theorem c3_preresolved_tryGet [Inhabited T] (v : T) (e : E) (ctx : Ctx E) (pick : Bool) :
    TryGet (Ok v : Future T E) ctx pick = some ((v, none), Ok v)
    ∧ TryGet (Err e : Future T E) ctx pick = some ((default, some e), Err e) := by
  constructor
  · simpa [Ok] using tryGet_done (Ok v : Future T E) ctx pick rfl
  · simpa [Err] using tryGet_error (Err e : Future T E) ctx pick rfl

/-- C4: on a still-Pending future (task not yet finished) a TryGet whose
context is done returns the context's cancellation error with the zero value,
and leaves the future entirely unchanged (still Pending, nothing cached);
once the task later completes, a TryGet with a fresh context observes the
task's terminal outcome. -/
theorem c4_cancellation_local [Inhabited T] (f : Future T E) (ce : E) (v : T) (e : E)
    (pick pick2 : Bool)
    (hp : f.state = State.pending) (hc : f.chanMsg = none) :
    TryGet f (some ce) pick = some ((default, some ce), f)
    ∧ TryGet (completeTask f (v, none)) none pick2
        = some ((v, none), completeTask f (v, none))
    ∧ TryGet (completeTask f (v, some e)) none pick2
        = some ((default, some e), completeTask f (v, some e)) := by
  refine ⟨tryGet_pending_canceled f ce pick hp hc, ?_, ?_⟩
  · have h1 := tryGet_done (completeTask f (v, none)) none pick2 (by simp [completeTask])
    simpa [completeTask] using h1
  · have h1 := tryGet_error (completeTask f (v, some e)) none pick2 (by simp [completeTask])
    simpa [completeTask] using h1

/-- C4 witness at concrete inputs. -/
theorem c4_witness :
    (TryGet (New : Future Nat Nat) (some 9) true = some ((0, some 9), New)
      ∧ TryGet (completeTask (New : Future Nat Nat) (3, none)) none true
          = some ((3, none), completeTask New (3, none))
      ∧ TryGet (completeTask (New : Future Nat Nat) (3, some 7)) none true
          = some ((0, some 7), completeTask New (3, some 7))) :=
  c4_cancellation_local New 9 3 7 true true rfl rfl

/-- C10: whenever TryGet returns a non-nil error — the cached error of a
Failed future or a local cancellation error — the value component of the
result is the zero value of T. -/
theorem c10_zero_value_on_error [Inhabited T] (f : Future T E) (ctx : Ctx E)
    (pick : Bool) (w : T) (e : E) (g : Future T E)
    (h : TryGet f ctx pick = some ((w, some e), g)) : w = default := by
  rcases tryGet_result_inv f ctx pick w (some e) g h with ⟨hn, _⟩ | hd
  · exact absurd hn (by simp)
  · exact hd

/-- C10 witness at a concrete input. -/
theorem c10_witness :
    (TryGet (Err 5 : Future Nat Nat) none true = some (((0 : Nat), some 5), Err 5)
      ∧ (0 : Nat) = default) :=
  ⟨by decide, c10_zero_value_on_error (Err 5) none true 0 5 (Err 5) (by decide)⟩

theorem outcomeOf_completeTask_outcomeOf [Inhabited U] (h : Future U E) :
    outcomeOf (completeTask (New : Future U E) (outcomeOf h)) = outcomeOf h := by
  by_cases hd : h.state = State.done
  · simp [outcomeOf, hd, completeTask]
  · cases herr : h.err with
    | none => simp [outcomeOf, hd, herr, completeTask]
    | some e2 => simp [outcomeOf, hd, herr, completeTask]

/-- C5: mapping over a successfully resolved future yields a future that
resolves with the transformed value; mapping over a failed future propagates
the original error unchanged with the zero value, and the transform is never
invoked (the result is the same for any two transforms). -/
theorem c5_map [Inhabited T] [Inhabited U] (fd fe : Future T E)
    (g g2 : Ctx E → T → U) (ctx : Ctx E) (pick : Bool) (e : E)
    (hd : fd.state = State.done)
    (he : fe.state = State.error) (herr : fe.err = some e) :
    (Map fd g ctx pick).map (fun r => outcomeOf r.1) = some (g ctx fd.val, none)
    ∧ (Map fe g ctx pick).map (fun r => outcomeOf r.1) = some ((default : U), some e)
    ∧ Map fe g ctx pick = Map fe g2 ctx pick := by
  refine ⟨?_, ?_, ?_⟩
  · rw [Map, mapBody, tryGet_done fd ctx pick hd]
    simp [outcomeOf_completeTask_ok]
  · rw [Map, mapBody, tryGet_error fe ctx pick he, herr]
    simp [outcomeOf_completeTask_err]
  · rw [Map, Map, mapBody, mapBody, tryGet_error fe ctx pick he, herr]
    rfl

/-- C5 witness at concrete inputs. -/
theorem c5_witness :
    ((Map (Ok 3 : Future Nat Nat) (fun _ x => x + 10) none true).map
        (fun r => outcomeOf r.1) = some (13, none)
      ∧ (Map (Err 7 : Future Nat Nat) (fun _ x => x + 10) none true).map
          (fun r => outcomeOf r.1) = some ((0 : Nat), some 7)
      ∧ Map (Err 7 : Future Nat Nat) (fun _ x => x + 10) none true
          = Map (Err 7) (fun _ x => x + 99) none true) :=
  c5_map (Ok 3) (Err 7) (fun _ x => x + 10) (fun _ x => x + 99) none true 7
    rfl rfl rfl

/-- C6: MapErr on a successfully resolved future passes the value through
unchanged with no error; on a failed future it invokes the transform with the
zero (unavailable) value — not the original error — and the resulting
future's outcome is the zero value paired with exactly whatever the transform
returns, the original error never appearing. -/
theorem c6_mapErr [Inhabited T] (fd fe : Future T E) (g : Ctx E → T → Option E)
    (ctx : Ctx E) (pick : Bool) (e : E)
    (hd : fd.state = State.done)
    (he : fe.state = State.error) (herr : fe.err = some e) :
    (MapErr fd g ctx pick).map (fun r => outcomeOf r.1) = some (fd.val, none)
    ∧ (MapErr fe g ctx pick).map (fun r => outcomeOf r.1)
        = some ((default : T), g ctx default) := by
  constructor
  · rw [MapErr, mapErrBody, tryGet_done fd ctx pick hd]
    simp [outcomeOf_completeTask_ok]
  · rw [MapErr, mapErrBody, tryGet_error fe ctx pick he, herr]
    cases hg : g ctx default with
    | none => simp [hg, outcomeOf_completeTask_ok]
    | some e2 => simp [hg, outcomeOf_completeTask_err]

/-- C6 witness at concrete inputs. -/
theorem c6_witness :
    ((MapErr (Ok 3 : Future Nat Nat) (fun _ _ => some 42) none true).map
        (fun r => outcomeOf r.1) = some (3, none)
      ∧ (MapErr (Err 7 : Future Nat Nat) (fun _ _ => some 42) none true).map
          (fun r => outcomeOf r.1) = some ((0 : Nat), some 42)) :=
  c6_mapErr (Ok 3) (Err 7) (fun _ _ => some 42) none true 7 rfl rfl rfl

/-- C7: FlatMapErr on a failed future calls the bind function with the zero
(default) value, awaits the dependent future and adopts its outcome (value or
error) as its own; on a successfully resolved future the result resolves to
the zero value of U with no error — the original success value is dropped and
the bind function is never invoked (same result for any two binds). -/
theorem c7_flatMapErr [Inhabited T] [Inhabited U] (fd fe : Future T E)
    (g g2 : Ctx E → T → Future U E) (ctx : Ctx E) (pick pick2 : Bool) (e : E)
    (hd : fd.state = State.done)
    (he : fe.state = State.error) (herr : fe.err = some e)
    (hdep : (g ctx default).state ≠ State.pending) :
    (FlatMapErr fe g ctx pick pick2).map (fun r => outcomeOf r.1)
        = some (outcomeOf (g ctx default))
    ∧ (FlatMapErr fd g ctx pick pick2).map (fun r => outcomeOf r.1)
        = some ((default : U), none)
    ∧ FlatMapErr fd g ctx pick pick2 = FlatMapErr fd g2 ctx pick pick2 := by
  refine ⟨?_, ?_, ?_⟩
  · simp [FlatMapErr, flatMapErrBody, tryGet_error fe ctx pick he, herr,
      tryGet_terminal (g ctx default) ctx pick2 hdep, outcomeOf_completeTask_outcomeOf]
  · simp [FlatMapErr, flatMapErrBody, tryGet_done fd ctx pick hd,
      outcomeOf_completeTask_ok]
  · rw [FlatMapErr, FlatMapErr, flatMapErrBody, flatMapErrBody,
      tryGet_done fd ctx pick hd]
    rfl

/-- C7 witness at concrete inputs. -/
theorem c7_witness :
    ((FlatMapErr (Err 7 : Future Nat Nat) (fun _ _ => Ok 21) none true true).map
        (fun r => outcomeOf r.1) = some (outcomeOf (Ok 21 : Future Nat Nat))
      ∧ (FlatMapErr (Ok 3 : Future Nat Nat) (fun _ _ => Ok 21) none true true).map
          (fun r => outcomeOf r.1) = some ((0 : Nat), none)
      ∧ FlatMapErr (Ok 3 : Future Nat Nat) (fun _ _ => Ok 21) none true true
          = FlatMapErr (Ok 3) (fun _ _ => Err 9) none true true) :=
  c7_flatMapErr (Ok 3) (Err 7) (fun _ _ => Ok 21) (fun _ _ => Err 9)
    none true true 7 rfl rfl rfl (by decide)

/-- C8: when every input future resolves successfully and each spawned reader
reports its success event, All collects the values at their original
positions and returns them in input order, no matter in which order the
readers complete (any permutation of the reader events), with no error. -/
theorem c8_all_ordered [Inhabited T] (fs : List (Future T E)) (order : List Nat)
    (ctx : Ctx E) (pick : Bool) (v : Nat → T)
    (hev : ∀ (i : Nat) (h : i < fs.length),
        readerEvent ctx pick i (fs.get ⟨i, h⟩) = some (AllEv.succ i (v i)))
    (hdone : ∀ (i : Nat) (h : i < fs.length), (fs.get ⟨i, h⟩).state = State.done)
    (hperm : List.Perm order (List.range fs.length)) :
    All fs (order.map fun i => AllEv.succ i (v i))
      = some (Except.ok (fs.map Future.val)) := by
  have horderlen : order.length = fs.length := by
    simpa using hperm.length_eq
  have hnodup : order.Nodup := hperm.nodup_iff.mpr (List.nodup_range _)
  have hmapeq : (order.map fun i => (AllEv.succ i (v i) : AllEv T E))
      = ((order.map fun i => (i, v i)).map fun p => (AllEv.succ p.1 p.2 : AllEv T E)) := by
    simp [List.map_map, Function.comp]
  have hlen : (order.map fun i => (i, v i)).length = fs.length := by
    simpa using horderlen
  rw [All, hmapeq]
  have hrw := allLoop_succs (E := E) (order.map fun i => (i, v i))
    (List.replicate fs.length (default : T)) ([] : List (AllEv T E)) fs.length
    (le_of_eq hlen)
  rw [List.append_nil] at hrw
  rw [hrw, hlen, Nat.sub_self]
  have hsf : setFold (List.replicate fs.length (default : T))
      (order.map fun i => (i, v i)) = fs.map Future.val := by
    apply List.ext_getElem?
    intro j
    have hsflen : (setFold (List.replicate fs.length (default : T))
        (order.map fun i => (i, v i))).length = fs.length := by
      rw [setFold_length]; simp
    by_cases hj : j < fs.length
    · have hvj : v j = (fs.get ⟨j, hj⟩).val := by
        have h1 : readerEvent ctx pick j (fs.get ⟨j, hj⟩)
            = some (AllEv.succ j ((fs.get ⟨j, hj⟩).val)) := by
          rw [readerEvent, tryGet_done _ _ _ (hdone j hj)]
          rfl
        have h2 := hev j hj
        rw [h1] at h2
        have h3 := Option.some.inj h2
        injection h3 with _ h4
        exact h4.symm
      have hfst : (order.map fun i => (i, v i)).map Prod.fst = order := by
        rw [List.map_map]
        exact List.map_id order
      have hnd : ((order.map fun i => (i, v i)).map Prod.fst).Nodup := by
        rw [hfst]; exact hnodup
      have hjmem : j ∈ order := hperm.mem_iff.mpr (List.mem_range.mpr hj)
      have hpair : (j, v j) ∈ (order.map fun i => (i, v i)) :=
        List.mem_map.mpr ⟨j, hjmem, rfl⟩
      have hjlen : j < (List.replicate fs.length (default : T)).length := by
        simpa using hj
      rw [setFold_getElem_of_mem _ j (v j) _ hnd hpair hjlen]
      rw [List.getElem?_map, List.getElem?_eq_getElem hj]
      simp [hvj, List.get_eq_getElem]
    · have h1 : (setFold (List.replicate fs.length (default : T))
          (order.map fun i => (i, v i)))[j]? = none := by
        apply List.getElem?_eq_none
        rw [hsflen]
        omega
      have h2 : (fs.map Future.val)[j]? = none := by
        apply List.getElem?_eq_none
        simp
        omega
      rw [h1, h2]
  rw [hsf]
  rfl

/-- C8 witness: f1 resolving to 1 and f2 resolving to 2, with f2 completing
first, still yields the values in input order. -/
theorem c8_witness :
    All ([Ok 1, Ok 2] : List (Future Nat Nat))
        ([1, 0].map fun i => (AllEv.succ i (i + 1) : AllEv Nat Nat))
      = some (Except.ok (([Ok 1, Ok 2] : List (Future Nat Nat)).map Future.val)) :=
  c8_all_ordered [Ok 1, Ok 2] [1, 0] none true (fun i => i + 1)
    (by decide) (by decide) (by decide)

/-- C9 (amended): All hands each spawned reader the caller's context itself —
it derives no cancellable child context and cancels nothing.  A reader whose
future failed with error e reports exactly that error, and on the first
error event (or a caller-context cancellation event) the aggregator returns
that error immediately, regardless of what the remaining readers would still
deliver. -/
theorem c9_failfast_no_derived_cancel [Inhabited T] (fs : List (Future T E))
    (ctx : Ctx E) (pick : Bool) (pre : List (Nat × T)) (e ce : E)
    (rest rest2 : List (AllEv T E))
    (h : pre.length < fs.length) :
    allReaderCtx ctx = ctx
    ∧ (∀ (f : Future T E) (i : Nat), f.state = State.error → f.err = some e →
        readerEvent ctx pick i f = some (AllEv.fail e))
    ∧ All fs ((pre.map fun p => AllEv.succ p.1 p.2) ++ AllEv.fail e :: rest)
        = some (Except.error e)
    ∧ All fs ((pre.map fun p => AllEv.succ p.1 p.2) ++ AllEv.ctxCancel ce :: rest2)
        = some (Except.error ce) := by
  obtain ⟨k, hk⟩ : ∃ k, fs.length - pre.length = k + 1 := ⟨fs.length - pre.length - 1, by omega⟩
  refine ⟨rfl, ?_, ?_, ?_⟩
  · intro f i hfe hferr
    rw [readerEvent, tryGet_error f ctx pick hfe, hferr]
    rfl
  · rw [All, allLoop_succs _ _ _ _ (le_of_lt h), hk]
    rfl
  · rw [All, allLoop_succs _ _ _ _ (le_of_lt h), hk]
    rfl

/-- C9 witness at concrete inputs. -/
theorem c9_witness :
    (allReaderCtx (none : Ctx Nat) = none
      ∧ (∀ (f : Future Nat Nat) (i : Nat), f.state = State.error → f.err = some 7 →
          readerEvent none true i f = some (AllEv.fail 7))
      ∧ All [Err 7, (New : Future Nat Nat)]
          (([] : List (Nat × Nat)).map (fun p => AllEv.succ p.1 p.2)
            ++ AllEv.fail 7 :: []) = some (Except.error 7)
      ∧ All [Err 7, (New : Future Nat Nat)]
          (([] : List (Nat × Nat)).map (fun p => AllEv.succ p.1 p.2)
            ++ AllEv.ctxCancel 9 :: []) = some (Except.error 9)) :=
  c9_failfast_no_derived_cancel [Err 7, New] none true [] 7 9 [] [] (by decide)

/-- C9 counterexample to the claim as stated: All over a failing first input
and a still-pending second input returns the first error, but no derived
context exists or is canceled — the readers wait under the caller's context
itself, which is still live afterwards, so the abandoned reader's wait step
still blocks rather than being canceled. -/
theorem c9_counterexample :
    All [Err 7, (New : Future Nat Nat)] [AllEv.fail 7] = some (Except.error 7)
    ∧ allReaderCtx (none : Ctx Nat) = none
    ∧ TryGet (New : Future Nat Nat) (allReaderCtx none) true = none
    ∧ TryGet (New : Future Nat Nat) (allReaderCtx none) false = none :=
  ⟨rfl, rfl, rfl, rfl⟩

end GoFuture
